import Mathlib

/-!
Shallow embedding of the constraint-validation core of the repository
(src/validator/validator.py), together with a model of the regex matcher
semantics used by Validator.match_regex (Python re.match) and a heap model
of the ConstraintsBuilder (whose per-field constraint dicts are mutable
objects shared by reference after a shallow dict() copy in build()).

Modelling conventions:
- Python values reaching the validator are the tagged union of the data
  model: strings, numbers (modelled as integers), booleans and lists.
- Python regular-expression patterns are modelled as a small abstract
  syntax (character classes, concatenation, one-or-more repetition of a
  class, and the end-of-input anchor corresponding to the dollar sign);
  match_regex implements the semantics of re.match: the pattern must
  match at the start of the text and may consume any prefix.
- Condition predicates are opaque callables in the source and are
  modelled as total Lean functions from values to Bool.
- Exceptions are modelled with Except; the source raises ValueError
  (carrying a message string) and, when re.match is applied to a
  non-string value, TypeError.
-/

set_option maxRecDepth 4000

/-- Tagged union of record values, following the data model: a value is a
string, a number (integer), a boolean, or a list of values. -/
inductive Value where
  | str (s : String)
  | int (n : Int)
  | bool (b : Bool)
  | list (xs : List Value)

/-- Python truthiness for values: 0, the empty string, False and the empty
list are falsy, everything else is truthy. Used because the source tests
the field value with `if not (value_to_validate := data.get(key))`. -/
def pyFalsy : Value → Bool
  | .str s => s.isEmpty
  | .int n => n == 0
  | .bool b => !b
  | .list xs => xs.isEmpty

/-- Abstract syntax for the regular-expression patterns the repository
uses: a character class, concatenation, one-or-more repetition of a
character class, and the end-of-text anchor (the dollar sign). The caret
anchor is redundant under re.match, which always anchors at the start. -/
inductive Regex where
  | cls (ranges : List (Char × Char))
  | seq (r1 r2 : Regex)
  | plusCls (ranges : List (Char × Char))
  | eos
deriving DecidableEq

/-- Membership of a character in a character class given by ranges. -/
def clsMatches (ranges : List (Char × Char)) (c : Char) : Bool :=
  ranges.any (fun p => decide (p.fst ≤ c) && decide (c ≤ p.snd))

/-- Remainders of the input after a one-or-more repetition of a character
class consumes a non-empty prefix of in-class characters. -/
def plusRemainders (ranges : List (Char × Char)) : List Char → List (List Char)
  | [] => []
  | c :: rest =>
    if clsMatches ranges c then rest :: plusRemainders ranges rest else []

/-- Possible remainders of the input after the pattern matches a prefix of
it. A backtracking matcher finds a match exactly when this list is
non-empty, which is the semantics of re.match used by the source. -/
def remainders : Regex → List Char → List (List Char)
  | .cls ranges, l =>
    match l with
    | [] => []
    | c :: rest => if clsMatches ranges c then [rest] else []
  | .seq r1 r2, l => (remainders r1 l).flatMap (fun t => remainders r2 t)
  | .plusCls ranges, l => plusRemainders ranges l
  | .eos, l => if l.isEmpty then [[]] else []

/-- Embedding of Validator.match_regex: `re.match(regex, text) is not
None`, i.e. the pattern matches at the start of the text, consuming any
prefix of it. -/
def match_regex (regex : Regex) (text : String) : Bool :=
  !(remainders regex text.data).isEmpty

/-- Embedding of Validator.check_condition: apply the caller-supplied
predicate to the object. -/
def check_condition (condition : Value → Bool) (obj : Value) : Bool :=
  condition obj

/-- Embedding of Validator.check_instance. The numeric branch is
`isinstance(element, Number)`: in Python, bool is a subclass of int, so a
boolean value is an instance of numbers.Number and this branch returns
True for booleans as well as integers. -/
def check_instance (obj : String) (element : Value) : Bool :=
  if obj == "numeric" then
    match element with
    | .int _ => true
    | .bool _ => true
    | _ => false
  else if obj == "str" then
    match element with
    | .str _ => true
    | _ => false
  else if obj == "bool" then
    match element with
    | .bool _ => true
    | _ => false
  else if obj == "list" then
    match element with
    | .list _ => true
    | _ => false
  else false

/-- Entry of the errors dict. The source declares `errors: dict[str,
list]` but the missing-key branch assigns the plain string
`errors[key] = 'key not found'`, so an entry is either a bare string or a
list of violation strings. -/
inductive ErrVal where
  | str (s : String)
  | list (msgs : List String)
deriving DecidableEq

/-- The errors dict of the validator: insertion-ordered mapping from field
name to its recorded violations. -/
abbrev Errors := List (String × ErrVal)

/-- Single-quote character, used by the Python str() rendering of a list
of strings inside errors_to_str. -/
def pyQuote : String := String.singleton (Char.ofNat 39)

/-- Python str() rendering of a list of strings, as produced by the
f-string interpolation in errors_to_str when the dict value is a list. -/
def pyListRepr (msgs : List String) : String :=
  "[" ++ String.intercalate (", ") (msgs.map (fun m => pyQuote ++ m ++ pyQuote)) ++ "]"

/-- Python str() rendering of one errors-dict value: a bare string renders
as itself, a list renders with brackets and quoted elements. -/
def errValStr : ErrVal → String
  | .str s => s
  | .list msgs => pyListRepr msgs

/-- Embedding of Validator.errors_to_str: join the entries of the errors
dict as `key: message` separated by commas. -/
def errors_to_str (errors : Errors) : String :=
  String.intercalate (", ") (errors.map (fun p => p.fst ++ ": " ++ errValStr p.snd))

/-- Append a message to the list held at a key of the errors dict,
following `self.errors[key].append(msg)` on a defaultdict(list): a missing
key is first bound to the empty list. The bare-string case is unreachable
in the source because each constrained key is visited exactly once per
validation pass (Python would raise AttributeError there). -/
def appendErr : Errors → String → String → Errors
  | [], key, msg => [(key, .list [msg])]
  | (k, v) :: rest, key, msg =>
    if k == key then
      (k, match v with
          | .list msgs => ErrVal.list (msgs ++ [msg])
          | .str s => ErrVal.str s) :: rest
    else (k, v) :: appendErr rest key msg

/-- Plain dict assignment `errors[key] = s` of a bare string, used by the
missing-key branch of check_constraint. -/
def setErrStr : Errors → String → String → Errors
  | [], key, s => [(key, .str s)]
  | (k, v) :: rest, key, s =>
    if k == key then (k, .str s) :: rest else (k, v) :: setErrStr rest key s

/-- One entry of a per-field constraint dict. The dict keys of the source
are the strings type, regex and condition; the value shapes are paired
with the keys by construction in ConstraintsBuilder, so the embedding
correlates them in one constructor each. An unrecognized key is kept as
unknownE and makes the evaluator raise. -/
inductive CEntry where
  | typeE (t : String)
  | regexE (rs : List Regex)
  | condE (cs : List (Value → Bool))
  | unknownE (name : String)

/-- A per-field constraint dict: entries in insertion order. -/
abbrev InnerConstraint := List CEntry

/-- The constraint set consumed by RecordValidator: mapping from field
name to its constraint dict, in insertion order. -/
abbrev Constraints := List (String × InnerConstraint)

/-- A record: mapping from field name to value, in insertion order. -/
abbrev Record := List (String × Value)

/-- Embedding of `data.get(key)` on a record. -/
def dataGet : Record → String → Option Value
  | [], _ => none
  | (k, v) :: rest, key => if k == key then some v else dataGet rest key

/-- Error raised by the embedded code: the source raises ValueError with a
message; applying re.match to a non-string value raises TypeError. -/
inductive PyErr where
  | valueError (msg : String)
  | typeError (msg : String)
deriving DecidableEq

/-- Message of the empty-input ValueError raised at the top of validate. -/
def noInputMsg : String := "No input data provided."

/-- Message stored for a constrained key that fails the truthiness test on
`data.get(key)`. -/
def keyNotFoundMsg : String := "key not found"

/-- Message appended when check_instance rejects the value. -/
def incorrectTypeMsg : String := "incorrect type"

/-- Message of the ValueError raised for an unrecognized constraint key. -/
def constraintNotFoundMsg : String := "Constraint not found"

/-- Message of the TypeError raised by re.match on a non-string value. -/
def reTypeErrorMsg : String := "expected string or bytes-like object"

/-- Violation message for the regex check at 1-based position i. -/
def regexViolationMsg (i : Nat) : String :=
  "does not match regex number " ++ toString i

/-- Violation message for the condition check at 1-based position i. Note
the colon before the number, present in the source f-string. -/
def condViolationMsg (i : Nat) : String :=
  "does not match condition number: " ++ toString i

/-- Application of match_regex to a field value as done inside
check_constraint: re.match requires the text to be a string and raises
TypeError otherwise. -/
def matchRegexValue (r : Regex) (v : Value) : Except PyErr Bool :=
  match v with
  | .str s => .ok (match_regex r s)
  | _ => .error (.typeError reTypeErrorMsg)

/-- The regex loop of check_constraint:
`for i, expression in enumerate(constraint_values, start=1)`, appending a
violation for each non-matching pattern and continuing past failures. -/
def regexLoop (errors : Errors) (key : String) (v : Value) :
    List Regex → Nat → Except PyErr Errors
  | [], _ => .ok errors
  | r :: rest, i =>
    match matchRegexValue r v with
    | .error e => .error e
    | .ok b =>
      regexLoop (if !b then appendErr errors key (regexViolationMsg i) else errors)
        key v rest (i + 1)

/-- The condition loop of check_constraint:
`for i, condition in enumerate(constraint_values, start=1)`, appending a
violation for each failing predicate and continuing past failures. -/
def condLoop (errors : Errors) (key : String) (v : Value) :
    List (Value → Bool) → Nat → Errors
  | [], _ => errors
  | c :: rest, i =>
    condLoop (if !(check_condition c v) then appendErr errors key (condViolationMsg i) else errors)
      key v rest (i + 1)

/-- The `for constraint_name, constraint_values in constraint.items()`
loop of check_constraint, dispatching on the entry kind in dict insertion
order. A failing type check appends the incorrect-type message and
returns, stopping evaluation of the remaining entries for this field; an
unrecognized key raises ValueError. -/
def entriesLoop (errors : Errors) (key : String) (v : Value) :
    InnerConstraint → Except PyErr Errors
  | [] => .ok errors
  | .typeE t :: rest =>
    if !(check_instance t v) then .ok (appendErr errors key incorrectTypeMsg)
    else entriesLoop errors key v rest
  | .regexE rs :: rest =>
    match regexLoop errors key v rs 1 with
    | .error e => .error e
    | .ok errors2 => entriesLoop errors2 key v rest
  | .condE cs :: rest => entriesLoop (condLoop errors key v cs 1) key v rest
  | .unknownE _ :: _ => .error (.valueError constraintNotFoundMsg)

/-- Embedding of RecordValidator._check_constraint. The source tests
`if not (value_to_validate := data.get(key))`, which is true both when the
key is absent and when its value is falsy; in that case the errors dict
entry for the key is assigned the bare string key-not-found message and
the method returns. -/
def check_constraint (errors : Errors) (key : String) (data : Record)
    (constraint : InnerConstraint) : Except PyErr Errors :=
  match dataGet data key with
  | none => .ok (setErrStr errors key keyNotFoundMsg)
  | some v =>
    if pyFalsy v then .ok (setErrStr errors key keyNotFoundMsg)
    else entriesLoop errors key v constraint

/-- The `for key, constraint in self._constraints.items()` loop of
validate, threading the errors dict through check_constraint. -/
def runConstraints (errors : Errors) (data : Record) :
    Constraints → Except PyErr Errors
  | [] => .ok errors
  | (key, c) :: rest =>
    match check_constraint errors key data c with
    | .error e => .error e
    | .ok errors2 => runConstraints errors2 data rest

/-- The full error-collection pass of validate, starting from the freshly
reset empty errors dict. -/
def collectErrors (constraints : Constraints) (data : Record) :
    Except PyErr Errors :=
  runConstraints [] data constraints

/-- Embedding of RecordValidator.validate: raise ValueError on an empty
record, run every constraint collecting violations, raise one ValueError
carrying errors_to_str of the report when it is non-empty, and otherwise
return the record unchanged. -/
def validate (constraints : Constraints) (data : Record) :
    Except PyErr Record :=
  if data.isEmpty then .error (.valueError noInputMsg)
  else
    match collectErrors constraints data with
    | .error e => .error e
    | .ok errors =>
      if errors.length > 0 then .error (.valueError (errors_to_str errors))
      else .ok data

/-!
Heap model of ConstraintsBuilder. In the source, `_constraints` is a
defaultdict mapping each field name to a mutable per-field dict object;
`build()` is `dict(self._constraints)`, a shallow copy of the outer
mapping that shares the inner dict objects by reference. The embedding
makes those references explicit: inner dicts live in a store indexed by
addresses, a builder maps field names to addresses, and build returns the
outer mapping value (same addresses). Reading a built set dereferences the
addresses in the current store, so mutation of an inner dict through the
builder is visible through a previously built set.
-/

/-- Address of a per-field constraint dict object in the store. -/
abbrev Addr := Nat

/-- Store of allocated per-field constraint dicts, with the next fresh
address. -/
structure BHeap where
  store : List (Addr × InnerConstraint)
  next : Addr

/-- The outer `_constraints` mapping of the builder: field name to the
address of its per-field dict object. -/
abbrev BuilderMap := List (String × Addr)

/-- A builder together with the store its inner dict objects live in. -/
abbrev BuilderState := BuilderMap × BHeap

/-- Dereference an address in the store. Every address held by a builder
is allocated, so the default is never consulted. -/
def storeGet (h : BHeap) (a : Addr) : InnerConstraint :=
  match h.store.lookup a with
  | some d => d
  | none => []

/-- Overwrite the dict object at an address of the store. -/
def storeSet (h : BHeap) (a : Addr) (d : InnerConstraint) : BHeap :=
  ⟨h.store.map (fun p => if p.fst == a then (p.fst, d) else p), h.next⟩

/-- Lookup of a field name in the outer builder mapping. -/
def builderLookup : BuilderMap → String → Option Addr
  | [], _ => none
  | (k, a) :: rest, key => if k == key then some a else builderLookup rest key

/-- The defaultdict access `self._constraints[key]`: returns the address
of the existing per-field dict, or allocates a fresh empty dict for a new
field. -/
def ensureField (s : BuilderState) (key : String) : BuilderState × Addr :=
  match builderLookup s.fst key with
  | some a => (s, a)
  | none =>
    ((s.fst ++ [(key, s.snd.next)],
      ⟨s.snd.store ++ [(s.snd.next, [])], s.snd.next + 1⟩), s.snd.next)

/-- Whether a constraint dict already has its type entry. -/
def isTypeE : CEntry → Bool
  | .typeE _ => true
  | _ => false

/-- Whether a constraint dict already has its regex entry. -/
def isRegexE : CEntry → Bool
  | .regexE _ => true
  | _ => false

/-- Whether a constraint dict already has its condition entry. -/
def isCondE : CEntry → Bool
  | .condE _ => true
  | _ => false

/-- Dict assignment of the type tag: overwrite in place when present
(keeping its position), otherwise append at the end. This mirrors
assigning to an existing or new dict key in Python. -/
def setTypeEntry (d : InnerConstraint) (t : String) : InnerConstraint :=
  if d.any isTypeE then
    d.map (fun e => match e with | .typeE _ => CEntry.typeE t | e => e)
  else d ++ [.typeE t]

/-- The statement `if regex not in dict: dict[regex] = []`. -/
def ensureRegexEntry (d : InnerConstraint) : InnerConstraint :=
  if d.any isRegexE then d else d ++ [.regexE []]

/-- The statement appending a pattern to the regex list of the dict. -/
def appendRegexEntry (d : InnerConstraint) (r : Regex) : InnerConstraint :=
  d.map (fun e => match e with | .regexE rs => CEntry.regexE (rs ++ [r]) | e => e)

/-- The statement `if condition not in dict: dict[condition] = []`. -/
def ensureCondEntry (d : InnerConstraint) : InnerConstraint :=
  if d.any isCondE then d else d ++ [.condE []]

/-- The statement appending a predicate to the condition list of the
dict. -/
def appendCondEntry (d : InnerConstraint) (c : Value → Bool) : InnerConstraint :=
  d.map (fun e => match e with | .condE cs => CEntry.condE (cs ++ [c]) | e => e)

/-- Embedding of ConstraintsBuilder.add_regex: ensure the per-field dict
exists, create its regex list when missing, append the pattern, then
assign the type tag str. Note the type tag is inserted after the regex
entry on the first call for a field, so the evaluator visits the regex
entry first. -/
def add_regex (s : BuilderState) (key : String) (r : Regex) : BuilderState :=
  match ensureField s key with
  | (s1, a) =>
    let d := storeGet s1.snd a
    let d1 := ensureRegexEntry d
    let d2 := appendRegexEntry d1 r
    let d3 := setTypeEntry d2 ("str")
    (s1.fst, storeSet s1.snd a d3)

/-- Embedding of ConstraintsBuilder._add_condition_check. Every source
caller passes the dict key condition as the condition_name argument, so
the embedding fixes that slot. The type tag is assigned last, after the
condition entry, so on the first call for a field the condition entry
precedes the type entry in insertion order. -/
def add_condition_check (s : BuilderState) (ctype : String) (key : String)
    (c : Value → Bool) : BuilderState :=
  match ensureField s key with
  | (s1, a) =>
    let d := storeGet s1.snd a
    let d1 := ensureCondEntry d
    let d2 := appendCondEntry d1 c
    let d3 := setTypeEntry d2 ctype
    (s1.fst, storeSet s1.snd a d3)

/-- Embedding of ConstraintsBuilder.add_value_check: a condition check
with the numeric type tag. -/
def add_value_check (s : BuilderState) (key : String) (c : Value → Bool) :
    BuilderState :=
  add_condition_check s ("numeric") key c

/-- Embedding of ConstraintsBuilder.add_list_check: a condition check with
the list type tag. -/
def add_list_check (s : BuilderState) (key : String) (c : Value → Bool) :
    BuilderState :=
  add_condition_check s ("list") key c

/-- Embedding of ConstraintsBuilder.add_bool_check: a condition check with
the bool type tag. -/
def add_bool_check (s : BuilderState) (key : String) (c : Value → Bool) :
    BuilderState :=
  add_condition_check s ("bool") key c

/-- Embedding of ConstraintsBuilder.build: `dict(self._constraints)`, the
shallow copy of the outer mapping. The returned value holds the same
addresses of the inner dict objects as the builder. -/
def build (s : BuilderState) : BuilderMap :=
  s.fst

/-- Read a built constraint set by dereferencing its inner-dict addresses
in the given store: the value the validator actually sees. -/
def readSet (m : BuilderMap) (h : BHeap) : Constraints :=
  m.map (fun p => (p.fst, storeGet h p.snd))

/-- A freshly constructed ConstraintsBuilder with its empty store. -/
def newBuilder : BuilderState :=
  ([], ⟨[], 0⟩)

/-!
Spec-side definitions. These follow the wording of the specification and
are compared against the embedded code by the theorems below; they are
deliberately kept separate from the embedding of the source.
-/

/-- Spec-side list of regex violations: for each pattern, in declaration
order with 1-based numbering from i, the violation message exactly when
the pattern does not match; evaluation continues past failures. -/
def specRegexViolations (rs : List Regex) (s : String) (i : Nat) : List String :=
  match rs with
  | [] => []
  | r :: rest =>
    (if match_regex r s then [] else [regexViolationMsg i]) ++
      specRegexViolations rest s (i + 1)

/-- Spec-side list of condition violations: for each predicate, in
declaration order with 1-based numbering from i, the violation message
exactly when the predicate fails; evaluation continues past failures. -/
def specCondViolations (cs : List (Value → Bool)) (v : Value) (i : Nat) : List String :=
  match cs with
  | [] => []
  | c :: rest =>
    (if c v then [] else [condViolationMsg i]) ++
      specCondViolations rest v (i + 1)

/-- Append a list of messages one by one to the entry of a key in the
errors dict. -/
def appendMsgs (errors : Errors) (key : String) : List String → Errors
  | [] => errors
  | m :: rest => appendMsgs (appendErr errors key m) key rest

/-- Spec-side satisfaction of one constraint entry by a value, following
the rule semantics of the specification: the type check passes, every
regex matches (regex checks are only satisfiable by string values), every
predicate holds; an unrecognized entry is never satisfied. -/
def entrySat (v : Value) : CEntry → Bool
  | .typeE t => check_instance t v
  | .regexE rs =>
    rs.all (fun r =>
      match v with
      | .str s => match_regex r s
      | _ => false)
  | .condE cs => cs.all (fun c => check_condition c v)
  | .unknownE _ => false

/-- Spec-side statement that a record satisfies every rule of a constraint
set: every constrained field is present and its value satisfies every
entry of the field. -/
def specSatisfies (constraints : Constraints) (data : Record) : Bool :=
  constraints.all (fun p =>
    match dataGet data p.fst with
    | some v => p.snd.all (entrySat v)
    | none => false)

/-- Whether every constrained field that is present in the record holds a
truthy value. -/
def allTruthyConstrained (constraints : Constraints) (data : Record) : Bool :=
  constraints.all (fun p =>
    match dataGet data p.fst with
    | some v => !(pyFalsy v)
    | none => true)

/-- Relational semantics of the regex fragment: the pattern matches the
input consuming a prefix and leaving the remainder. -/
inductive MRel : Regex → List Char → List Char → Prop where
  | cls {ranges c rest} : clsMatches ranges c = true →
      MRel (.cls ranges) (c :: rest) rest
  | seq {r1 r2 l m t} : MRel r1 l m → MRel r2 m t → MRel (.seq r1 r2) l t
  | plusOne {ranges c rest} : clsMatches ranges c = true →
      MRel (.plusCls ranges) (c :: rest) rest
  | plusMore {ranges c rest t} : clsMatches ranges c = true →
      MRel (.plusCls ranges) rest t → MRel (.plusCls ranges) (c :: rest) t
  | eos : MRel .eos [] []

/-- Total number of declared regex patterns in a constraint set, used to
distinguish two concrete constraint sets without deciding equality of
stored predicates. -/
def countRegexes (constraints : Constraints) : Nat :=
  (constraints.map (fun p =>
    (p.snd.map (fun e => match e with | CEntry.regexE rs => rs.length | _ => 0)).sum)).sum

/-!
Concrete predicates, patterns and scenarios used by the theorems. The
predicates translate the lambdas appearing in the specification examples,
evaluated on the integer values those examples supply.
-/

/-- Translation of the lambda `x > 5` of the specification example. -/
def condGt5 : Value → Bool
  | .int n => decide (n > 5)
  | _ => false

/-- Translation of the lambda `x <= 10` of the specification example. -/
def condLe10 : Value → Bool
  | .int n => decide (n ≤ 10)
  | _ => false

/-- Translation of a lambda `x >= 0`. -/
def condGe0 : Value → Bool
  | .int n => decide (0 ≤ n)
  | _ => false

/-- A predicate that rejects every value, the translation of the Python
lambda ignoring its argument and returning False. -/
def condFalse : Value → Bool :=
  fun _ => false

/-- Character class of one uppercase letter. -/
def regUpper : Regex := Regex.cls [('A', 'Z')]

/-- One-or-more uppercase letters. -/
def regUpperPlus : Regex := Regex.plusCls [('A', 'Z')]

/-- One-or-more lowercase letters. -/
def regLowerPlus : Regex := Regex.plusCls [('a', 'z')]

/-- One-or-more decimal digits. -/
def regDigitPlus : Regex := Regex.plusCls [('0', '9')]

/-- The pattern of the C10 example: one uppercase letter followed by one
or more lowercase letters, without anchors. -/
def namePat : Regex := Regex.seq regUpper regLowerPlus

/-- The same pattern with the end-of-text anchor, forcing a full match
under re.match. -/
def namePatAnchored : Regex := Regex.seq namePat Regex.eos

/-- Builder scenario of the specification example for conditions: two
value checks on the same field, declared in order. -/
def c7S : BuilderState :=
  add_value_check (add_value_check newBuilder ("value") condGt5) ("value") condLe10

/-- The constraint set the validator sees for the condition example. -/
def c7C : Constraints := readSet (build c7S) c7S.snd

/-- The record of the condition example. -/
def c7R : Record := [("value", Value.int 11)]

/-- Builder scenario with a single value check whose predicate accepts
zero. -/
def c3S : BuilderState := add_value_check newBuilder ("count") condGe0

/-- The constraint set of the single value check scenario. -/
def c3C : Constraints := readSet (build c3S) c3S.snd

/-- A record holding the falsy but rule-satisfying value zero in the
constrained field. -/
def c3R : Record := [("count", Value.int 0)]

/-- A constraint set whose single field name contains a comma and a colon,
chosen so that its flattened report collides with that of c1SetB. -/
def c1SetA : Constraints := [("a: key not found, b", [CEntry.typeE ("str")])]

/-- A constraint set with two ordinary missing fields. -/
def c1SetB : Constraints :=
  [("a", [CEntry.typeE ("str")]), ("b", [CEntry.typeE ("str")])]

/-- A non-empty record lacking every field constrained by c1SetA and
c1SetB. -/
def c1Rec : Record := [("x", Value.int 1)]

/-- Builder scenario with one always-failing value check. -/
def c2S : BuilderState := add_value_check newBuilder ("v") condFalse

/-- The constraint set of the always-failing value check scenario. -/
def c2C : Constraints := readSet (build c2S) c2S.snd

/-- A record whose constrained field holds a truthy string, which fails
the numeric type check. -/
def c2R : Record := [("v", Value.str ("abc"))]

/-- A direct constraint dict as the builder shapes it, used for the C4
counterexample on a distinct field. -/
def c4C : Constraints := [("n", [CEntry.condE [condGe0], CEntry.typeE ("numeric")])]

/-- A record holding zero, which satisfies every rule of c4C but is
falsy. -/
def c4R : Record := [("n", Value.int 0)]

/-- A builder-shaped constraint set satisfied by c4okR. -/
def c4okC : Constraints := [("w", [CEntry.condE [condGt5], CEntry.typeE ("numeric")])]

/-- A record satisfying every rule of c4okC with a truthy value. -/
def c4okR : Record := [("w", Value.int 9)]

/-- Builder scenario declaring three regex checks on the same field, in
order. -/
def c8S : BuilderState :=
  add_regex (add_regex (add_regex newBuilder ("name") regUpperPlus) ("name") regLowerPlus)
    ("name") regDigitPlus

/-- The constraint set of the three-regex scenario. -/
def c8C : Constraints := readSet (build c8S) c8S.snd

/-- A record whose field matches only the second of the three declared
patterns. -/
def c8R : Record := [("name", Value.str ("abc"))]

/-- Builder after one add_regex call on the name field. -/
def c9S1 : BuilderState := add_regex newBuilder ("name") namePat

/-- The constraint set returned by build after the first add_regex. -/
def c9Snap : BuilderMap := build c9S1

/-- The same builder mutated by a second add_regex on the same field,
after build was called. -/
def c9S2 : BuilderState := add_regex c9S1 ("name") regLowerPlus

/-!
Helper lemmas relating the stateful loops of the evaluator to the
spec-side violation lists, and basic facts about the errors dict.
-/

/-- Appending to the list entry of a key already present at the head. -/
theorem appendErr_key_list (key m : String) (xs : List String) (rest : Errors) :
    appendErr ((key, ErrVal.list xs) :: rest) key m = (key, ErrVal.list (xs ++ [m])) :: rest := by
  simp [appendErr]

/-- Appending a batch of messages to a singleton list entry. -/
theorem appendMsgs_single (key : String) (ms xs : List String) :
    appendMsgs [(key, ErrVal.list xs)] key ms = [(key, ErrVal.list (xs ++ ms))] := by
  induction ms generalizing xs with
  | nil => simp [appendMsgs]
  | cons m rest ih =>
    show appendMsgs (appendErr [(key, ErrVal.list xs)] key m) key rest = _
    rw [appendErr_key_list, ih]
    simp

/-- Appending a batch of messages to the empty errors dict. -/
theorem appendMsgs_nil_start (key : String) (ms : List String) :
    appendMsgs [] key ms = if ms.isEmpty then [] else [(key, ErrVal.list ms)] := by
  cases ms with
  | nil => rfl
  | cons m rest =>
    show appendMsgs (appendErr [] key m) key rest = _
    have h : appendErr [] key m = [(key, ErrVal.list [m])] := rfl
    rw [h, appendMsgs_single]
    simp

/-- Appending one more message after a batch appended to the empty errors
dict. -/
theorem appendErr_appendMsgs_nil (key : String) (ms : List String) (m : String) :
    appendErr (appendMsgs [] key ms) key m = [(key, ErrVal.list (ms ++ [m]))] := by
  cases ms with
  | nil => rfl
  | cons m0 rest =>
    rw [appendMsgs_nil_start]
    simp [appendErr_key_list]

/-- The condition loop of the evaluator equals appending the spec-side
condition violation list: declaration order, 1-based numbering from i,
continuing past failures. -/
theorem condLoop_eq (key : String) (v : Value) (cs : List (Value → Bool))
    (errors : Errors) (i : Nat) :
    condLoop errors key v cs i = appendMsgs errors key (specCondViolations cs v i) := by
  induction cs generalizing errors i with
  | nil => rfl
  | cons c rest ih =>
    cases hc : c v with
    | false => simp [condLoop, check_condition, hc, specCondViolations, ih, appendMsgs]
    | true => simp [condLoop, check_condition, hc, specCondViolations, ih]

/-- The regex loop of the evaluator on a string value equals appending the
spec-side regex violation list: declaration order, 1-based numbering from
i, continuing past failures; it never raises on a string value. -/
theorem regexLoop_eq (key s : String) (rs : List Regex) (errors : Errors) (i : Nat) :
    regexLoop errors key (Value.str s) rs i =
      .ok (appendMsgs errors key (specRegexViolations rs s i)) := by
  induction rs generalizing errors i with
  | nil => rfl
  | cons r rest ih =>
    cases hm : match_regex r s with
    | false => simp [regexLoop, matchRegexValue, hm, specRegexViolations, ih, appendMsgs]
    | true => simp [regexLoop, matchRegexValue, hm, specRegexViolations, ih]

/-- A value passing every condition produces no spec-side condition
violations. -/
theorem specCondViolations_all (v : Value) (cs : List (Value → Bool)) :
    cs.all (fun c => check_condition c v) = true →
    ∀ i, specCondViolations cs v i = [] := by
  induction cs with
  | nil => intro _ _; rfl
  | cons c rest ih =>
    intro h i
    have h1 := Bool.and_elim_left h
    have h2 := Bool.and_elim_right h
    have hc : c v = true := h1
    simp [specCondViolations, hc, ih h2]

/-- A string matching every pattern produces no spec-side regex
violations. -/
theorem specRegexViolations_all (s : String) (rs : List Regex) :
    rs.all (fun r => match_regex r s) = true →
    ∀ i, specRegexViolations rs s i = [] := by
  induction rs with
  | nil => intro _ _; rfl
  | cons r rest ih =>
    intro h i
    have h1 := Bool.and_elim_left h
    have h2 := Bool.and_elim_right h
    have hm : match_regex r s = true := h1
    simp [specRegexViolations, hm, ih h2]

/-- The condition loop leaves the errors dict unchanged when every
predicate passes. -/
theorem condLoop_all (key : String) (v : Value) (cs : List (Value → Bool))
    (h : cs.all (fun c => check_condition c v) = true) (errors : Errors) (i : Nat) :
    condLoop errors key v cs i = errors := by
  rw [condLoop_eq, specCondViolations_all v cs h i]
  rfl

/-- The regex loop returns the errors dict unchanged when the value
satisfies every regex entry in the spec-side sense. -/
theorem regexLoop_ok (key : String) (v : Value) (rs : List Regex)
    (h : rs.all (fun r =>
      match v with
      | Value.str s => match_regex r s
      | _ => false) = true) (errors : Errors) (i : Nat) :
    regexLoop errors key v rs i = .ok errors := by
  cases v with
  | str s =>
    have h2 : rs.all (fun r => match_regex r s) = true := h
    rw [regexLoop_eq, specRegexViolations_all s rs h2 i]
    rfl
  | int n =>
    cases rs with
    | nil => rfl
    | cons r rest => simp at h
  | bool b =>
    cases rs with
    | nil => rfl
    | cons r rest => simp at h
  | list xs =>
    cases rs with
    | nil => rfl
    | cons r rest => simp at h

/-- The entry loop returns the errors dict unchanged when the value
satisfies every entry. -/
theorem entriesLoop_ok (key : String) (v : Value) (entries : InnerConstraint) :
    entries.all (entrySat v) = true →
    ∀ errors, entriesLoop errors key v entries = .ok errors := by
  induction entries with
  | nil => intro _ _; rfl
  | cons e rest ih =>
    intro h errors
    have h1 := Bool.and_elim_left h
    have h2 := Bool.and_elim_right h
    cases e with
    | typeE t =>
      have ht : check_instance t v = true := h1
      simp [entriesLoop, ht, ih h2 errors]
    | regexE rs =>
      have hr := regexLoop_ok key v rs h1 errors 1
      simp [entriesLoop, hr, ih h2 errors]
    | condE cs =>
      have hc := condLoop_all key v cs h1 errors 1
      simp [entriesLoop, hc, ih h2 errors]
    | unknownE n => exact absurd h1 (by simp [entrySat])

/-- One constraint check is a no-op on the errors dict when the field is
present with a truthy value satisfying every entry. -/
theorem check_constraint_ok (errors : Errors) (key : String) (data : Record)
    (entries : InnerConstraint) (v : Value) (hget : dataGet data key = some v)
    (hf : pyFalsy v = false) (hall : entries.all (entrySat v) = true) :
    check_constraint errors key data entries = .ok errors := by
  simp [check_constraint, hget, hf, entriesLoop_ok key v entries hall errors]

/-- The constraint pass leaves the errors dict unchanged on a record
satisfying every rule with truthy constrained values. -/
theorem runConstraints_ok (C : Constraints) (data : Record) :
    specSatisfies C data = true → allTruthyConstrained C data = true →
    ∀ errors, runConstraints errors data C = .ok errors := by
  induction C with
  | nil => intro _ _ _; rfl
  | cons p rest ih =>
    intro hs ht errors
    obtain ⟨k, c⟩ := p
    have hs' : ((match dataGet data k with
        | some v => c.all (entrySat v)
        | none => false) && specSatisfies rest data) = true := hs
    have ht' : ((match dataGet data k with
        | some v => !(pyFalsy v)
        | none => true) && allTruthyConstrained rest data) = true := ht
    have hs1 := Bool.and_elim_left hs'
    have hs2 := Bool.and_elim_right hs'
    have ht1 := Bool.and_elim_left ht'
    have ht2 := Bool.and_elim_right ht'
    cases hget : dataGet data k with
    | none =>
      rw [hget] at hs1
      exact absurd hs1 (by simp)
    | some v =>
      rw [hget] at hs1 ht1
      have hf : pyFalsy v = false := by simpa using ht1
      have hcc := check_constraint_ok errors k data c v hget hf hs1
      simp [runConstraints, hcc, ih hs2 ht2 errors]

/-- The validator raises one aggregated ValueError whose message is the
flattened errors_to_str rendering of the collected report. -/
theorem validate_flat_error (C : Constraints) (R : Record) (errs : Errors)
    (hne : R ≠ []) (hc : collectErrors C R = .ok errs) (he : errs ≠ []) :
    validate C R = .error (.valueError (errors_to_str errs)) := by
  cases R with
  | nil => exact absurd rfl hne
  | cons p rest =>
    have hlen : 0 < errs.length := List.length_pos.mpr he
    simp [validate, hc, hlen]

/-- The constraint pass over a concatenation of constraint lists processes
the first part and, unless it raised, continues with the second: single
field-level violations never abort the pass. -/
theorem runConstraints_append (Ca Cb : Constraints) (R : Record) (errors : Errors) :
    runConstraints errors R (Ca ++ Cb) =
      (runConstraints errors R Ca).bind (fun e2 => runConstraints e2 R Cb) := by
  induction Ca generalizing errors with
  | nil => rfl
  | cons p rest ih =>
    obtain ⟨k, c⟩ := p
    cases h : check_constraint errors k R c with
    | error e => simp [runConstraints, h, Except.bind]
    | ok e2 => simp [runConstraints, h, Except.bind, ih]

/-!
Lemmas connecting the executable regex matcher to the relational
semantics.
-/

/-- Membership in the one-or-more remainders agrees with the relational
semantics of the repetition. -/
theorem plusRemainders_iff (ranges : List (Char × Char)) (l t : List Char) :
    t ∈ plusRemainders ranges l ↔ MRel (.plusCls ranges) l t := by
  induction l with
  | nil =>
    simp only [plusRemainders, List.not_mem_nil, false_iff]
    intro h
    cases h
  | cons c rest ih =>
    by_cases hc : clsMatches ranges c = true
    · simp only [plusRemainders, hc, if_true, List.mem_cons]
      constructor
      · rintro (rfl | h)
        · exact MRel.plusOne hc
        · exact MRel.plusMore hc (ih.mp h)
      · intro h
        cases h with
        | plusOne _ => exact Or.inl rfl
        | plusMore _ h2 => exact Or.inr (ih.mpr h2)
    · have hc2 : clsMatches ranges c = false := by
        revert hc; cases clsMatches ranges c <;> simp
      simp only [plusRemainders, hc2, Bool.false_eq_true, if_false, List.not_mem_nil, false_iff]
      intro h
      cases h with
      | plusOne hm => rw [hc2] at hm; cases hm
      | plusMore hm _ => rw [hc2] at hm; cases hm

/-- Membership in the remainders list agrees with the relational
semantics: the pattern consumes a prefix and leaves exactly the
remainder. -/
theorem remainders_iff (r : Regex) : ∀ (l t : List Char),
    t ∈ remainders r l ↔ MRel r l t := by
  induction r with
  | cls ranges =>
    intro l t
    cases l with
    | nil =>
      simp only [remainders, List.not_mem_nil, false_iff]
      intro h
      cases h
    | cons c rest =>
      by_cases hc : clsMatches ranges c = true
      · simp only [remainders, hc, if_true, List.mem_singleton]
        constructor
        · rintro rfl
          exact MRel.cls hc
        · intro h
          cases h with
          | cls _ => rfl
      · have hc2 : clsMatches ranges c = false := by
          revert hc; cases clsMatches ranges c <;> simp
        simp only [remainders, hc2, Bool.false_eq_true, if_false, List.not_mem_nil, false_iff]
        intro h
        cases h with
        | cls hm => rw [hc2] at hm; cases hm
  | seq r1 r2 ih1 ih2 =>
    intro l t
    simp only [remainders, List.mem_flatMap]
    constructor
    · rintro ⟨m, hm1, hm2⟩
      exact MRel.seq ((ih1 l m).mp hm1) ((ih2 m t).mp hm2)
    · intro h
      cases h with
      | seq h1 h2 => exact ⟨_, (ih1 _ _).mpr h1, (ih2 _ _).mpr h2⟩
  | plusCls ranges =>
    intro l t
    exact plusRemainders_iff ranges l t
  | eos =>
    intro l t
    cases l with
    | nil =>
      simp only [remainders, List.isEmpty_nil, if_true, List.mem_singleton]
      constructor
      · rintro rfl
        exact MRel.eos
      · intro h
        cases h with
        | eos => rfl
    | cons c rest =>
      simp only [remainders, List.isEmpty_cons, Bool.false_eq_true, if_false,
        List.not_mem_nil, false_iff]
      intro h
      cases h

/-- A successful relational match consumes a prefix: the input splits as
the consumed part followed by the remainder. -/
theorem MRel_consumed : ∀ {r : Regex} {l t : List Char}, MRel r l t → ∃ p, l = p ++ t := by
  intro r l t h
  induction h with
  | @cls ranges c rest hc => exact ⟨[c], rfl⟩
  | seq h1 h2 ih1 ih2 =>
    obtain ⟨p1, e1⟩ := ih1
    obtain ⟨p2, e2⟩ := ih2
    exact ⟨p1 ++ p2, by rw [e1, e2, List.append_assoc]⟩
  | @plusOne ranges c rest hc => exact ⟨[c], rfl⟩
  | @plusMore ranges c rest t hc h2 ih =>
    obtain ⟨p, e⟩ := ih
    exact ⟨c :: p, by rw [e]; rfl⟩
  | eos => exact ⟨[], rfl⟩

/-- The executable matcher succeeds exactly when the relational semantics
matches some prefix of the text. -/
theorem match_regex_iff (r : Regex) (s : String) :
    match_regex r s = true ↔ ∃ t, MRel r s.data t := by
  unfold match_regex
  constructor
  · intro h
    cases hl : remainders r s.data with
    | nil => rw [hl] at h; simp at h
    | cons a as =>
      exact ⟨a, (remainders_iff r s.data a).mp (by rw [hl]; exact List.mem_cons_self a as)⟩
  · rintro ⟨t, ht⟩
    have hm := (remainders_iff r s.data t).mpr ht
    cases hl : remainders r s.data with
    | nil => rw [hl] at hm; cases hm
    | cons a as => rfl

/-!
Claim theorems. Each theorem settles one claim of the specification
against the embedded code.
-/

/-- C1 (amended): validate collects every field-level violation over the
whole pass without raising for any individual one and, when at least one
violation was recorded, raises a single ValueError whose payload is the
flattened errors_to_str string of the report; the structured report
itself is not carried by the raised error. -/
theorem c1_aggregated_flat_error :
    (∀ (C : Constraints) (R : Record) (errs : Errors), R ≠ [] →
        collectErrors C R = .ok errs → errs ≠ [] →
        validate C R = .error (.valueError (errors_to_str errs)))
    ∧ (∀ (Ca Cb : Constraints) (R : Record) (errors : Errors),
        runConstraints errors R (Ca ++ Cb) =
          (runConstraints errors R Ca).bind (fun e2 => runConstraints e2 R Cb)) :=
  ⟨validate_flat_error, runConstraints_append⟩

/-- C1 witness: a concrete validation whose non-empty report is raised as
the flattened string. -/
theorem c1_aggregated_flat_error_witness :
    c1Rec ≠ [] ∧
    collectErrors c1SetB c1Rec =
      .ok [("a", ErrVal.str keyNotFoundMsg), ("b", ErrVal.str keyNotFoundMsg)] ∧
    ([("a", ErrVal.str keyNotFoundMsg), ("b", ErrVal.str keyNotFoundMsg)] : Errors) ≠ [] ∧
    validate c1SetB c1Rec =
      .error (.valueError (errors_to_str
        [("a", ErrVal.str keyNotFoundMsg), ("b", ErrVal.str keyNotFoundMsg)])) :=
  ⟨List.cons_ne_nil _ _, rfl, List.cons_ne_nil _ _,
    c1_aggregated_flat_error.1 c1SetB c1Rec _ (List.cons_ne_nil _ _) rfl (List.cons_ne_nil _ _)⟩

/-- C1 counterexample: two different constraint sets produce different
structured reports on the same record, yet validate raises the same
ValueError for both, so the structured report cannot be recovered from
the raised error. -/
theorem c1_report_not_recoverable :
    validate c1SetA c1Rec = .error (.valueError ("a: key not found, b: key not found")) ∧
    validate c1SetB c1Rec = .error (.valueError ("a: key not found, b: key not found")) ∧
    collectErrors c1SetA c1Rec = .ok [("a: key not found, b", ErrVal.str keyNotFoundMsg)] ∧
    collectErrors c1SetB c1Rec =
      .ok [("a", ErrVal.str keyNotFoundMsg), ("b", ErrVal.str keyNotFoundMsg)] ∧
    ([("a: key not found, b", ErrVal.str keyNotFoundMsg)] : Errors) ≠
      [("a", ErrVal.str keyNotFoundMsg), ("b", ErrVal.str keyNotFoundMsg)] :=
  ⟨rfl, rfl, rfl, rfl, by decide⟩

/-- C2 (amended): constraint entries are evaluated in dict insertion
order; for builder-built constraints the type tag is inserted after the
first condition entry, so the condition checks of a field run before its
type check, and a failing type check appends exactly one incorrect-type
message after the earlier-recorded condition violations and stops the
evaluation of the field. -/
theorem c2_insertion_order_type_last :
    ∀ (cs : List (Value → Bool)) (t key : String) (v : Value),
      pyFalsy v = false → check_instance t v = false →
      check_constraint [] key [(key, v)] [CEntry.condE cs, CEntry.typeE t] =
        .ok [(key, ErrVal.list (specCondViolations cs v 1 ++ [incorrectTypeMsg]))] := by
  intro cs t key v hf ht
  have hget : dataGet [(key, v)] key = some v := by simp [dataGet]
  simp only [check_constraint, hget, hf]
  show entriesLoop (condLoop [] key v cs 1) key v [CEntry.typeE t] = _
  rw [condLoop_eq]
  simp only [entriesLoop, ht, Bool.not_false, if_true]
  rw [appendErr_appendMsgs_nil]

/-- C2 witness: the amended theorem applied to a truthy string value with
one always-failing condition check under the numeric type tag. -/
theorem c2_insertion_order_type_last_witness :
    pyFalsy (Value.str ("abc")) = false ∧
    check_instance ("numeric") (Value.str ("abc")) = false ∧
    check_constraint [] ("v") [(("v"), Value.str ("abc"))]
        [CEntry.condE [condFalse], CEntry.typeE ("numeric")] =
      .ok [(("v"), ErrVal.list
        (specCondViolations [condFalse] (Value.str ("abc")) 1 ++ [incorrectTypeMsg]))] :=
  ⟨rfl, rfl, c2_insertion_order_type_last [condFalse] ("numeric") ("v") (Value.str ("abc")) rfl rfl⟩

/-- C2 counterexample: with the builder-built constraint of one value
check, a truthy non-numeric value yields a report for the field containing
a condition violation before the incorrect-type message, refuting that the
type check runs first and that exactly the incorrect-type violation is
recorded. -/
theorem c2_condition_before_type :
    collectErrors c2C c2R = .ok [("v", ErrVal.list [condViolationMsg 1, incorrectTypeMsg])] ∧
    ErrVal.list [condViolationMsg 1, incorrectTypeMsg] ≠ ErrVal.list [incorrectTypeMsg] :=
  ⟨rfl, by decide⟩

/-- C3 (code bug): the record holds the constrained field with the value
zero, which satisfies every rule of the builder-built constraint set, yet
validate reports key not found for it, because the source tests the
truthiness of data.get(key) rather than the presence of the key; the
stored report entry is moreover the bare string rather than a one-element
list. -/
theorem c3_falsy_value_key_not_found :
    dataGet c3R ("count") = some (Value.int 0) ∧
    specSatisfies c3C c3R = true ∧
    validate c3C c3R = .error (.valueError ("count: key not found")) ∧
    collectErrors c3C c3R = .ok [("count", ErrVal.str keyNotFoundMsg)] :=
  ⟨rfl, rfl, rfl, rfl⟩

/-- C4 (amended): for every non-empty record that satisfies every rule of
the constraint set and whose constrained fields all hold truthy values,
validate raises no error and returns the original record unchanged. -/
theorem c4_satisfying_truthy_record_passes :
    ∀ (C : Constraints) (R : Record), R ≠ [] → specSatisfies C R = true →
      allTruthyConstrained C R = true → validate C R = .ok R := by
  intro C R hne hs ht
  cases R with
  | nil => exact absurd rfl hne
  | cons p rest =>
    have hrun := runConstraints_ok C (p :: rest) hs ht []
    simp [validate, collectErrors, hrun]

/-- C4 witness: a concrete builder-shaped constraint set and a satisfying
truthy record that validate returns unchanged. -/
theorem c4_satisfying_truthy_record_passes_witness :
    c4okR ≠ [] ∧ specSatisfies c4okC c4okR = true ∧
    allTruthyConstrained c4okC c4okR = true ∧ validate c4okC c4okR = .ok c4okR :=
  ⟨List.cons_ne_nil _ _, rfl, rfl,
    c4_satisfying_truthy_record_passes c4okC c4okR (List.cons_ne_nil _ _) rfl rfl⟩

/-- C4 counterexample: a record satisfying every rule of the constraint
set on which validate nevertheless raises, because the satisfying value
zero is falsy. -/
theorem c4_falsy_satisfying_record_rejected :
    specSatisfies c4C c4R = true ∧
    validate c4C c4R = .error (.valueError ("n: key not found")) :=
  ⟨rfl, rfl⟩

/-- C5 (code bug): the numeric branch of check_instance accepts boolean
values, because Python bool is a subclass of int and therefore an instance
of numbers.Number; the claim that a boolean never satisfies a numeric
type check is false on the code. -/
theorem c5_bool_satisfies_numeric :
    check_instance ("numeric") (Value.bool true) = true ∧
    check_instance ("numeric") (Value.bool false) = true :=
  ⟨rfl, rfl⟩

/-- C6: validate on the empty record raises the dedicated no-input
ValueError, for every constraint set, before any per-field rule
evaluation: the result does not depend on the constraints at all, even on
ones whose evaluation would itself raise. -/
theorem c6_empty_record_raises :
    ∀ (C : Constraints), C ≠ [] → validate C ([] : Record) = .error (.valueError noInputMsg) :=
  fun _ _ => rfl

/-- C6 witness: the theorem applied to a concrete non-empty constraint
set. -/
theorem c6_empty_record_raises_witness :
    c1SetA ≠ [] ∧ validate c1SetA ([] : Record) = .error (.valueError noInputMsg) :=
  ⟨List.cons_ne_nil _ _, c6_empty_record_raises c1SetA (List.cons_ne_nil _ _)⟩

/-- C7 (amended): every condition check of a field is evaluated in
declaration order, continuing past failures, each failing predicate
appending the violation with a colon before its 1-based number; the
specification example of two value checks on the field validated at
eleven yields exactly one condition violation, numbered 2. -/
theorem c7_condition_numbering_with_colon :
    (∀ (errors : Errors) (key : String) (v : Value) (cs : List (Value → Bool)),
        condLoop errors key v cs 1 = appendMsgs errors key (specCondViolations cs v 1))
    ∧ collectErrors c7C c7R = .ok [("value", ErrVal.list [condViolationMsg 2])]
    ∧ condViolationMsg 2 = "does not match condition number: 2" :=
  ⟨fun errors key v cs => condLoop_eq key v cs errors 1, rfl, rfl⟩

/-- C7 counterexample: the report of the specification example carries the
condition violation with a colon before the number, not the claimed
message without a colon. -/
theorem c7_condition_message_has_colon :
    collectErrors c7C c7R = .ok [("value", ErrVal.list [condViolationMsg 2])] ∧
    condViolationMsg 2 ≠ "does not match condition number 2" :=
  ⟨rfl, by decide⟩

/-- C8: every regex check of a field is evaluated in declaration order,
each independently and even after earlier failures, each failing pattern
appending the violation with its 1-based position; the builder-built
three-regex scenario on a value matching only the second pattern reports
exactly the violations numbered 1 and 3. -/
theorem c8_regex_numbering_all_evaluated :
    (∀ (errors : Errors) (key s : String) (rs : List Regex),
        regexLoop errors key (Value.str s) rs 1 =
          .ok (appendMsgs errors key (specRegexViolations rs s 1)))
    ∧ collectErrors c8C c8R =
        .ok [("name", ErrVal.list [regexViolationMsg 1, regexViolationMsg 3])]
    ∧ regexViolationMsg 1 = "does not match regex number 1" :=
  ⟨fun errors key s rs => regexLoop_eq key s rs errors 1, rfl, rfl⟩

/-- C9 (code bug): build returns a shallow copy sharing the per-field
constraint dict objects with the builder, so a later add_regex on the
builder changes what a previously built constraint set contains: the
snapshot read after the second add_regex lists both patterns. -/
theorem c9_built_set_aliases_builder :
    readSet c9Snap c9S1.snd = [("name", [CEntry.regexE [namePat], CEntry.typeE ("str")])] ∧
    readSet c9Snap c9S2.snd =
      [("name", [CEntry.regexE [namePat, regLowerPlus], CEntry.typeE ("str")])] ∧
    readSet c9Snap c9S2.snd ≠ readSet c9Snap c9S1.snd := by
  refine ⟨rfl, rfl, ?_⟩
  intro h
  have h2 := congrArg countRegexes h
  have e1 : countRegexes (readSet c9Snap c9S2.snd) = 2 := rfl
  have e2 : countRegexes (readSet c9Snap c9S1.snd) = 1 := rfl
  rw [e1, e2] at h2
  exact absurd h2 (by decide)

/-- C10: a regex check passes exactly when the pattern matches at the
start of the text, consuming any prefix of it; a match consumes a prefix;
the uppercase-then-lowercase pattern passes on Wojtek123 although the full
text is not of that shape, and the same pattern with the end anchor fails
on Wojtek123 but passes on Wojtek. -/
theorem c10_match_anchored_at_start_only :
    (∀ (r : Regex) (s : String), match_regex r s = true ↔ ∃ t, MRel r s.data t)
    ∧ (∀ (r : Regex) (l t : List Char), MRel r l t → ∃ p, l = p ++ t)
    ∧ match_regex namePat ("Wojtek123") = true
    ∧ ¬ ([] ∈ remainders namePat (String.data ("Wojtek123")))
    ∧ match_regex namePatAnchored ("Wojtek123") = false
    ∧ match_regex namePatAnchored ("Wojtek") = true :=
  ⟨match_regex_iff, fun _ _ _ h => MRel_consumed h, by decide, by decide, by decide, by decide⟩

/-- C10 witness: the prefix-consumption component applied to a concrete
relational match of the example pattern on a two-letter text. -/
theorem c10_match_anchored_at_start_only_witness :
    ∃ p, String.data ("Wo") = p ++ ([] : List Char) :=
  c10_match_anchored_at_start_only.2.1 namePat (String.data ("Wo")) []
    (MRel.seq (MRel.cls (by decide)) (MRel.plusOne (by decide)))
